/-
Verification of the core logic of the `netflix-analytics` dashboard
(`app.py`): the loader/normalizer (`load_data`), the module-level filter
application, and the top-genre summary aggregation.

The embedding models one pandas `DataFrame` row as a `Row` record and the
frame as a `List Row`.  Python string primitives (`str.strip`, `str.lower`,
`str.split`, substring containment, `re`-based extraction of an integer
before a token) are embedded as executable functions over `List Char`
(ASCII semantics; the dataset and the patterns involved are ASCII).
-/
import Mathlib

namespace Netflix

/-- Whitespace characters recognised by Python's `str.strip` and `\s`
(ASCII subset). -/
def isPySpace (c : Char) : Bool :=
  c = ' ' || c = '\t' || c = '\n' || c = '\x0d' || c = '\x0b' || c = '\x0c'

/-- ASCII lower-casing of one character, as Python `str.lower` acts on
ASCII text. -/
def lowerChar (c : Char) : Char :=
  if 'A' ≤ c && c ≤ 'Z' then Char.ofNat (c.toNat + 32) else c

/-- Embeds Python `str.lower` (ASCII semantics). -/
def pyLower (s : String) : String :=
  ⟨s.data.map lowerChar⟩

/-- Remove trailing whitespace from a character list. -/
def trimEnd : List Char → List Char
  | [] => []
  | c :: cs =>
    let r := trimEnd cs
    if r.isEmpty && isPySpace c then [] else c :: r

/-- Remove leading and trailing whitespace from a character list. -/
def stripChars (cs : List Char) : List Char :=
  trimEnd (cs.dropWhile isPySpace)

/-- Embeds Python `str.strip()` (no-argument form: strip whitespace from
both ends). -/
def pyStrip (s : String) : String :=
  ⟨stripChars s.data⟩

/-- `startsWithList needle hay`: `needle` is a prefix of `hay`. -/
def startsWithList : List Char → List Char → Bool
  | [], _ => true
  | _ :: _, [] => false
  | a :: as, b :: bs => a = b && startsWithList as bs

/-- `containsList needle hay`: `needle` occurs as a contiguous substring
of `hay` — Python's `in` operator on strings.  This is the
literal-substring reading of a search; the program's `str.contains`
default (`regex=True`) instead interprets its pattern as a regular
expression, modelled below by `parseRegex`/`searchAnywhere` and used by
`applyFiltersRe`. -/
def containsList (needle : List Char) : List Char → Bool
  | [] => startsWithList needle []
  | c :: cs => startsWithList needle (c :: cs) || containsList needle cs

/-- `pyContains hay needle`: literal substring containment on strings. -/
def pyContains (hay needle : String) : Bool :=
  containsList needle.data hay.data

/-- Split a character list at every occurrence of `sep`, keeping empty
pieces, exactly like Python `str.split(sep)` with an explicit separator
(`"".split(",") == [""]`). -/
def splitOnCharAux (sep : Char) : List Char → List (List Char)
  | [] => [[]]
  | c :: cs =>
    let r := splitOnCharAux sep cs
    if c = sep then [] :: r else (c :: r.headD []) :: r.tail

/-- Embeds Python `str.split(sep)` with a one-character separator. -/
def pySplitOn (sep : Char) (s : String) : List String :=
  (splitOnCharAux sep s.data).map (fun cs => ⟨cs⟩)

/-- Decimal value of a digit list (most significant first). -/
def digitsToNat (cs : List Char) : Nat :=
  cs.foldl (fun acc c => acc * 10 + (c.toNat - 48)) 0

/-- Parse a non-empty all-digit string into a `Nat`. -/
def parseNatDigits (cs : List Char) : Option Nat :=
  if !cs.isEmpty && cs.all Char.isDigit then some (digitsToNat cs) else none

/-- After the captured digit group, the regex `\s*tok` must match: skip
any whitespace, then `tok` must be a prefix of what remains (the tokens
used, `min` and `Season`, start with a non-whitespace character, so the
greedy `\s*` position is the only viable one). -/
def wsTokenCheck (tok : List Char) (cs : List Char) : Bool :=
  startsWithList tok (cs.dropWhile isPySpace)

/-- Embeds `Series.str.extract(r"(\d+)\s*tok", expand=False)` on one cell:
the first (leftmost) maximal digit run that is followed by optional
whitespace and the literal token yields its integer value; no such run
yields an absent value.  (Scanning every position is equivalent to
scanning run starts: a match beginning inside a digit run succeeds exactly
when the match at the run start does, and the run start comes first.) -/
def scanExtract (tok : List Char) : List Char → Option Nat
  | [] => none
  | c :: cs =>
    if c.isDigit && wsTokenCheck tok (cs.dropWhile Char.isDigit) then
      some (digitsToNat (c :: cs.takeWhile Char.isDigit))
    else scanExtract tok cs

/-- A parsed calendar date reduced to the components the program uses
(`.dt.year` and `.dt.month`). -/
structure PDate where
  year : Int
  month : Nat
deriving Repr, DecidableEq

/-- English month name to month number. -/
def monthIndex (s : String) : Option Nat :=
  match s with
  | "January" => some 1
  | "February" => some 2
  | "March" => some 3
  | "April" => some 4
  | "May" => some 5
  | "June" => some 6
  | "July" => some 7
  | "August" => some 8
  | "September" => some 9
  | "October" => some 10
  | "November" => some 11
  | "December" => some 12
  | _ => none

/-- Parse the `"D,"` middle token of a date: digits followed by a comma. -/
def parseDayComma (s : String) : Option Nat :=
  match s.data.reverse with
  | ',' :: ds => parseNatDigits ds.reverse
  | _ => none

/-- Modelled from the library: `pd.to_datetime(..., errors="coerce")` is
modelled for the `"MonthName D, YYYY"` format used by the dataset (e.g.
`"September 9, 2021"`); every other string is treated as unparseable and
coerces to absent (`NaT`).  The claims settled here depend only on parse
success for this format and on absence for unparseable text. -/
def parseDate (s : String) : Option PDate :=
  match pySplitOn ' ' (pyStrip s) with
  | [mon, dayPart, yearPart] =>
    match monthIndex mon, parseDayComma dayPart, parseNatDigits yearPart.data with
    | some m, some d, some y =>
      if 1 ≤ d && d ≤ 31 then some ⟨(y : Int), m⟩ else none
    | _, _, _ => none
  | _ => none

/-- One raw CSV row after column-name normalisation: each recognised field
is `none` when the column is missing or the cell is null (`NaN`).
`release_year` is carried as the result of `pd.to_numeric(..., "coerce")`:
an integer, or `none` for a missing/non-numeric cell. -/
structure RawRow where
  type : Option String := none
  title : Option String := none
  director : Option String := none
  cast : Option String := none
  country : Option String := none
  date_added : Option String := none
  release_year : Option Int := none
  rating : Option String := none
  duration : Option String := none
  listed_in : Option String := none
deriving Repr, DecidableEq

/-- One normalised row of the loaded table, with the derived columns
computed by `load_data`. -/
structure Row where
  type : String
  title : String
  rating : String
  director : String
  cast : String
  country : String
  listed_in : String
  duration : String
  date_added : Option PDate
  year_added : Option Int
  month_added : Option Nat
  release_year : Option Int
  country_list : List String
  genre_list : List String
  movie_minutes : Option Nat
  seasons : Option Nat
deriving Repr, DecidableEq

/-- Embeds the per-row work of `load_data` (`app.py` lines 49-88):
`date_added` is stripped and parsed with coercion to absent;
`year_added`/`month_added` are its components; `country`/`listed_in`
default to `"Unknown"`/`""` before comma-splitting and trimming;
`movie_minutes`/`seasons` are regex extractions from `duration`;
remaining text fields default to `"Unknown"`. -/
def loadRow (raw : RawRow) : Row :=
  let date := raw.date_added.bind (fun s => parseDate (pyStrip s))
  let country := raw.country.getD "Unknown"
  let listed := raw.listed_in.getD ""
  let dur := raw.duration.getD ""
  { type := raw.type.getD "Unknown"
    title := raw.title.getD "Unknown"
    rating := raw.rating.getD "Unknown"
    director := raw.director.getD "Unknown"
    cast := raw.cast.getD "Unknown"
    country := country
    listed_in := listed
    duration := dur
    date_added := date
    year_added := date.map PDate.year
    month_added := date.map PDate.month
    release_year := raw.release_year
    country_list := (pySplitOn ',' country).map pyStrip
    genre_list := (pySplitOn ',' listed).map pyStrip
    movie_minutes := scanExtract "min".data dur.data
    seasons := scanExtract "Season".data dur.data }

/-- Embeds `load_data` over the whole table. -/
def load_data (rows : List RawRow) : List Row :=
  rows.map loadRow

/-- The sidebar/filter selection state consumed by the module-level filter
application: the slider range `[lo, hi]`, the four multiselect lists and
the free-text search query. -/
structure FilterState where
  lo : Int
  hi : Int
  type_sel : List String
  country_sel : List String
  genre_sel : List String
  rating_sel : List String
  query : String
deriving Repr, DecidableEq

/-- Embeds `use_year_added = df["year_added"].notna().any()` (line 102),
computed once from the full unfiltered table. -/
def use_year_added (df : List Row) : Bool :=
  df.any (fun r => r.year_added.isSome)

/-- Embeds `Series.between(lo, hi, inclusive="both")` used as a boolean
mask: an absent value never satisfies the range check (pandas masks treat
`NaN`/`NA` as `False`). -/
def between (v : Option Int) (lo hi : Int) : Bool :=
  match v with
  | none => false
  | some y => lo ≤ y && y ≤ hi

/-- The literal-substring reading of the search mask of lines 171-175
for an already lower-cased, stripped query `q`: substring match against
lower-cased title, cast or director (all non-null after `load_data`, so
`na=False` is inert).  The program's `str.contains` default
(`regex=True`) instead treats `q` as a regular expression — the faithful
mask is `queryPredRe` below; the two coincide for queries without regex
metacharacters. -/
def queryPred (q : String) (r : Row) : Bool :=
  pyContains (pyLower r.title) q || pyContains (pyLower r.cast) q
    || pyContains (pyLower r.director) q

/-- The module-level filter application (`app.py` lines 154-175) with the
search stage under the literal-substring reading of `str.contains`: each
stage narrows `f` only when its control is active (non-empty list /
non-blank query); the range stage is always applied, on `year_added` or
`release_year` according to the global `use_year_added`.  The
regex-faithful pipeline is `applyFiltersRe` below, which is identical in
the first five stages and coincides with this one whenever the query
strips to empty (the regime of the claims stated over this function;
claims comparing two states with the same query are likewise insensitive
to the reading of the search stage). -/
def applyFilters (df : List Row) (fs : FilterState) : List Row :=
  let uya := use_year_added df
  let f := df
  let f := if fs.type_sel.isEmpty then f
    else f.filter (fun r => fs.type_sel.contains r.type)
  let f := if uya then f.filter (fun r => between r.year_added fs.lo fs.hi)
    else f.filter (fun r => between r.release_year fs.lo fs.hi)
  let f := if fs.country_sel.isEmpty then f
    else f.filter (fun r => fs.country_sel.any (fun c => r.country_list.contains c))
  let f := if fs.genre_sel.isEmpty then f
    else f.filter (fun r => fs.genre_sel.any (fun g => r.genre_list.contains g))
  let f := if fs.rating_sel.isEmpty then f
    else f.filter (fun r => fs.rating_sel.contains r.rating)
  let f := if pyStrip fs.query = "" then f
    else f.filter (queryPred (pyStrip (pyLower fs.query)))
  f

/-- Abstract syntax of the modelled regular-expression subset: the empty
language, the empty string, one literal character, `.`, concatenation,
alternation `|`, and Kleene star `*`.  Python's `+` and `?` are desugared
by the parser to `r · r*` and `r | ε`, as `re` defines them. -/
inductive Regex where
  | fail : Regex
  | emp : Regex
  | chr (c : Char) : Regex
  | dot : Regex
  | cat (r1 r2 : Regex) : Regex
  | alt (r1 r2 : Regex) : Regex
  | star (r : Regex) : Regex
deriving Repr, DecidableEq

/-- The regex accepts the empty string. -/
def nullable : Regex → Bool
  | .fail => false
  | .emp => true
  | .chr _ => false
  | .dot => false
  | .cat r1 r2 => nullable r1 && nullable r2
  | .alt r1 r2 => nullable r1 || nullable r2
  | .star _ => true

/-- Brzozowski derivative of a regex by one character.  `.` matches any
character except a newline, as Python `re` without `DOTALL`. -/
def deriv (c : Char) : Regex → Regex
  | .fail => .fail
  | .emp => .fail
  | .chr d => if c = d then .emp else .fail
  | .dot => if c = '\n' then .fail else .emp
  | .cat r1 r2 =>
    if nullable r1 then .alt (.cat (deriv c r1) r2) (deriv c r2)
    else .cat (deriv c r1) r2
  | .alt r1 r2 => .alt (deriv c r1) (deriv c r2)
  | .star r => .cat (deriv c r) (.star r)

/-- The regex matches some prefix of the character list — the truthiness
of `re.match` at a fixed start position. -/
def matchSomePrefix (r : Regex) : List Char → Bool
  | [] => nullable r
  | c :: cs => nullable r || matchSomePrefix (deriv c r) cs

/-- The regex matches starting at some position — the truthiness of
`re.search`, which is what `str.contains(pat, regex=True)` computes per
cell.  Which match is leftmost or longest is irrelevant for this boolean,
so the derivative matcher decides exactly the `re.search is not None`
question for the modelled syntax. -/
def searchAnywhere (r : Regex) : List Char → Bool
  | [] => nullable r
  | c :: cs => matchSomePrefix r (c :: cs) || searchAnywhere r cs

/-- One step of the recursive-descent pattern parser, fuelled for
termination (the fuel passed by `parseRegex` is ample for every input).
`mode` selects the grammar level: 0 alternation (`a|b`, empty branches
allowed as in `re`), 1 concatenation, 2 one optional postfix operator
(`*`, `+`, `?`; a second consecutive repeat such as `a**` fails to parse,
as `re` raises "multiple repeat"), 3 atom (a group `( ... )`, `.`, or one
literal character).  A dangling `)`, an unterminated `(`, or a repeat
with nothing to repeat fails, as `re.compile` raises on them. -/
def parseStep (fuel : Nat) (mode : Nat) (cs : List Char) : Option (Regex × List Char) :=
  match fuel with
  | 0 => none
  | fuel' + 1 =>
    if mode = 0 then
      match parseStep fuel' 1 cs with
      | none => none
      | some (r1, rest) =>
        match rest with
        | '|' :: rest' =>
          match parseStep fuel' 0 rest' with
          | none => none
          | some (r2, rest'') => some (.alt r1 r2, rest'')
        | _ => some (r1, rest)
    else if mode = 1 then
      match cs with
      | [] => some (.emp, [])
      | c :: _ =>
        if c = '|' || c = ')' then some (.emp, cs)
        else
          match parseStep fuel' 2 cs with
          | none => none
          | some (r1, rest) =>
            match parseStep fuel' 1 rest with
            | none => none
            | some (r2, rest') => some (.cat r1 r2, rest')
    else if mode = 2 then
      match parseStep fuel' 3 cs with
      | none => none
      | some (r, rest) =>
        match rest with
        | '*' :: rest' => some (.star r, rest')
        | '+' :: rest' => some (.cat r (.star r), rest')
        | '?' :: rest' => some (.alt r .emp, rest')
        | _ => some (r, rest)
    else
      match cs with
      | [] => none
      | '(' :: rest =>
        match parseStep fuel' 0 rest with
        | none => none
        | some (r, rest') =>
          match rest' with
          | ')' :: rest'' => some (r, rest'')
          | _ => none
      | '.' :: rest => some (.dot, rest)
      | c :: rest =>
        if c = '|' || c = '*' || c = '+' || c = '?' || c = '(' || c = ')'
            || c = '[' || c = ']' || c = '\\' || c = '{' || c = '}'
            || c = '^' || c = '$' then none
        else some (.chr c, rest)

/-- Modelled from the library: `re.compile` as invoked by
`str.contains(pat)` is modelled on the operator subset
literal / `.` / `*` / `+` / `?` / `|` / `( )`; `none` models the
`re.error` the program raises on an invalid pattern (unbalanced
parenthesis, nothing to repeat, multiple repeat).  Patterns using the
unsupported metacharacters `[ ] \ { } ^ $` are outside the model and
conservatively rejected; no claim below depends on them. -/
def parseRegex (s : String) : Option Regex :=
  match parseStep (4 * s.data.length + 4) 0 s.data with
  | some (r, []) => some r
  | _ => none

/-- Embeds the search mask of lines 171-175 for a compiled query regex:
`re.search` in the lower-cased title, cast or director (all non-null
after `load_data`, so `na=False` is inert). -/
def queryPredRe (re : Regex) (r : Row) : Bool :=
  searchAnywhere re (pyLower r.title).data
    || searchAnywhere re (pyLower r.cast).data
    || searchAnywhere re (pyLower r.director).data

/-- Embeds the module-level filter application (`app.py` lines 154-175)
with the search stage at its actual `str.contains` default semantics
(`regex=True`): the stripped, lower-cased query is compiled as a regular
expression and `re.search`ed; an invalid pattern raises `re.error` when
the first mask is built, modelled as `none`.  The first five stages are
exactly those of `applyFilters`. -/
def applyFiltersRe (df : List Row) (fs : FilterState) : Option (List Row) :=
  let uya := use_year_added df
  let f := df
  let f := if fs.type_sel.isEmpty then f
    else f.filter (fun r => fs.type_sel.contains r.type)
  let f := if uya then f.filter (fun r => between r.year_added fs.lo fs.hi)
    else f.filter (fun r => between r.release_year fs.lo fs.hi)
  let f := if fs.country_sel.isEmpty then f
    else f.filter (fun r => fs.country_sel.any (fun c => r.country_list.contains c))
  let f := if fs.genre_sel.isEmpty then f
    else f.filter (fun r => fs.genre_sel.any (fun g => r.genre_list.contains g))
  let f := if fs.rating_sel.isEmpty then f
    else f.filter (fun r => fs.rating_sel.contains r.rating)
  if pyStrip fs.query = "" then some f
  else
    match parseRegex (pyStrip (pyLower fs.query)) with
    | some re => some (f.filter (queryPredRe re))
    | none => none

/-- Row passes the type stage: inactive control or membership. -/
def typePass (fs : FilterState) (r : Row) : Bool :=
  fs.type_sel.isEmpty || fs.type_sel.contains r.type

/-- Row passes the always-active year-range stage on the globally chosen
time base. -/
def rangePass (uya : Bool) (fs : FilterState) (r : Row) : Bool :=
  between (if uya then r.year_added else r.release_year) fs.lo fs.hi

/-- Row passes the country stage: inactive control or list intersection. -/
def countryPass (fs : FilterState) (r : Row) : Bool :=
  fs.country_sel.isEmpty || fs.country_sel.any (fun c => r.country_list.contains c)

/-- Row passes the genre stage: inactive control or list intersection. -/
def genrePass (fs : FilterState) (r : Row) : Bool :=
  fs.genre_sel.isEmpty || fs.genre_sel.any (fun g => r.genre_list.contains g)

/-- Row passes the rating stage: inactive control or membership. -/
def ratingPass (fs : FilterState) (r : Row) : Bool :=
  fs.rating_sel.isEmpty || fs.rating_sel.contains r.rating

/-- Row passes the search stage: blank query or substring match. -/
def queryPass (fs : FilterState) (r : Row) : Bool :=
  decide (pyStrip fs.query = "") || queryPred (pyStrip (pyLower fs.query)) r

/-- The single row predicate the staged filter application amounts to:
every inactive control contributes `true`; the range check uses the one
globally chosen time base for every row. -/
def rowPred (uya : Bool) (fs : FilterState) (r : Row) : Bool :=
  typePass fs r && rangePass uya fs r && countryPass fs r && genrePass fs r
    && ratingPass fs r && queryPass fs r

/-- Embeds `f.explode("genre_list")["genre_list"].replace("", np.nan).dropna()`
(lines 197-198): flatten the per-row genre lists (a row with an empty list
contributes only a `NaN`, dropped) and drop empty-string entries. -/
def genreEntries (f : List Row) : List String :=
  (f.flatMap (fun r => r.genre_list)).filter (fun g => !(g == ""))

/-- One step of the maximum-count fold behind `mostFrequent`: keep the
candidate with the larger multiplicity in `xs`, preferring the earlier
one on ties. -/
def bestStep (xs : List String) (best : Option String) (y : String) : Option String :=
  match best with
  | none => some y
  | some b => if xs.count b < xs.count y then some y else some b

/-- Embeds `value_counts().idxmax()` on a list of entries: an entry of
maximal multiplicity, `none` for the empty list (where `idxmax` raises
`ValueError`).  pandas does not specify the order of equal counts after
the descending sort; ties are resolved here to the first-encountered
entry, and the theorems below rely only on maximality of the count. -/
def mostFrequent (xs : List String) : Option String :=
  xs.foldl (bestStep xs) none

/-- Embeds the `top_genre` expression (lines 196-202): when the filtered
table is non-empty and some row's `genre_list` is a non-empty list
(`astype(bool)` truthiness), the most frequent surviving genre entry via
`value_counts().idxmax()` — `none` modelling the `ValueError` raised by
`idxmax` on an empty series; otherwise the placeholder `"—"`. -/
def top_genre (f : List Row) : Option String :=
  if !f.isEmpty && f.any (fun r => !r.genre_list.isEmpty) then
    mostFrequent (genreEntries f)
  else some "—"

/-- A duration cell that is well-formed for a Movie in the sense of the
spec's pattern `"<integer> min"`: a non-empty digit run, one space, the
literal `min`; returns the integer. -/
def exactMovieForm (d : String) : Option Nat :=
  let digits := d.data.takeWhile Char.isDigit
  let rest := d.data.dropWhile Char.isDigit
  if !digits.isEmpty && rest == ' ' :: "min".data then
    some (digitsToNat digits)
  else none

/-- A duration cell that is well-formed for a TV Show in the sense of the
spec's pattern `"<integer> Season(s)"`: a non-empty digit run, one space,
the literal `Season` or `Seasons`; returns the integer. -/
def exactTVForm (d : String) : Option Nat :=
  let digits := d.data.takeWhile Char.isDigit
  let rest := d.data.dropWhile Char.isDigit
  if !digits.isEmpty && (rest == ' ' :: "Season".data || rest == ' ' :: "Seasons".data) then
    some (digitsToNat digits)
  else none

/-- `fs2` adds one constraint to `fs1` in the sense of the spec's
monotonicity property: one selection set that was empty becomes
non-empty, or the year range narrows, with every other criterion
unchanged. -/
def AddsConstraint (fs1 fs2 : FilterState) : Prop :=
  (fs1.type_sel = [] ∧ fs2.type_sel ≠ [] ∧ fs2 = { fs1 with type_sel := fs2.type_sel })
  ∨ (fs1.country_sel = [] ∧ fs2.country_sel ≠ []
      ∧ fs2 = { fs1 with country_sel := fs2.country_sel })
  ∨ (fs1.genre_sel = [] ∧ fs2.genre_sel ≠ []
      ∧ fs2 = { fs1 with genre_sel := fs2.genre_sel })
  ∨ (fs1.rating_sel = [] ∧ fs2.rating_sel ≠ []
      ∧ fs2 = { fs1 with rating_sel := fs2.rating_sel })
  ∨ (fs1.lo ≤ fs2.lo ∧ fs2.hi ≤ fs1.hi ∧ fs2 = { fs1 with lo := fs2.lo, hi := fs2.hi })

/-- A raw row with every field missing. -/
def rawEmpty : RawRow := {}

/-- A Movie row added in 2020 (so `year_added = some 2020`). -/
def rawMovie2020 : RawRow :=
  { type := some "Movie", date_added := some "January 1, 2020" }

/-- A Movie row with a well-formed movie duration. -/
def rawMovie90 : RawRow :=
  { type := some "Movie", duration := some "90 min" }

/-- A TV Show row with a well-formed show duration. -/
def rawShow2 : RawRow :=
  { type := some "TV Show", duration := some "2 Seasons" }

/-- A Movie row with no `date_added` (so `year_added = none`). -/
def rawMovieNoDate : RawRow :=
  { type := some "Movie" }

/-- A two-row loaded table: one row with a present `year_added`, one
without. -/
def tblPair : List Row :=
  load_data [rawMovie2020, rawMovieNoDate]

/-- A filter state whose only non-empty selection is the type set, with
the year range equal to the full `[min, max]` range of the present
`year_added` values of `tblPair`. -/
def fsTypeOnly : FilterState :=
  ⟨2020, 2020, ["Movie"], [], [], [], ""⟩

/-- A loaded table whose most frequent genre entry is `"Unknown"`. -/
def tblUnknownGenres : List Row :=
  load_data [{ listed_in := some "Unknown" }, { listed_in := some "Unknown" },
             { listed_in := some "Comedy" }]

/-- A filter state with every selection empty. -/
def fsAllEmpty : FilterState :=
  ⟨2020, 2020, [], [], [], [], ""⟩

/-- `fsAllEmpty` with the country selection turned non-empty. -/
def fsCountryUnknown : FilterState :=
  ⟨2020, 2020, [], ["Unknown"], [], [], ""⟩

/-- A filter state whose query is whitespace only. -/
def fsWhitespaceQuery : FilterState :=
  ⟨2020, 2020, [], [], [], [], "  "⟩

/-- A filter state whose query has surrounding whitespace around real
text. -/
def fsSearchQuery : FilterState :=
  ⟨2020, 2020, [], [], [], [], " King "⟩

/-- A filter state whose query strips to the regex metacharacter pattern
`.*`, which `re.search` matches against every string. -/
def fsDotStar : FilterState :=
  ⟨2020, 2020, [], [], [], [], " .* "⟩

/-- A filter state whose query strips to `(`, an invalid regular
expression on which the program's search mask raises `re.error`. -/
def fsParen : FilterState :=
  ⟨2020, 2020, [], [], [], [], " ( "⟩

end Netflix


namespace Netflix

lemma skip_or_filter {α : Type} (b : Bool) (p : α → Bool) (l : List α) :
    (if b then l else l.filter p) = l.filter (fun r => b || p r) := by
  cases b <;> simp

theorem applyFilters_eq_filter (df : List Row) (fs : FilterState) :
    applyFilters df fs = df.filter (rowPred (use_year_added df) fs) := by
  unfold applyFilters rowPred typePass rangePass countryPass genrePass ratingPass queryPass
  by_cases h1 : fs.type_sel.isEmpty <;>
    by_cases h2 : use_year_added df = true <;>
    by_cases h3 : fs.country_sel.isEmpty <;>
    by_cases h4 : fs.genre_sel.isEmpty <;>
    by_cases h5 : fs.rating_sel.isEmpty <;>
    by_cases h6 : pyStrip fs.query = "" <;>
    simp [h1, h2, h3, h4, h5, h6, List.filter_filter,
      Bool.and_assoc, Bool.and_comm, Bool.and_left_comm]

lemma length_filter_mono {α : Type} (p q : α → Bool) (l : List α)
    (h : ∀ a ∈ l, p a = true → q a = true) :
    (l.filter p).length ≤ (l.filter q).length := by
  induction l with
  | nil => simp
  | cons a t ih =>
    have ht : ∀ b ∈ t, p b = true → q b = true :=
      fun b hb => h b (List.mem_cons_of_mem _ hb)
    by_cases hp : p a = true
    · have hq := h a (List.mem_cons_self a t) hp
      simp only [List.filter_cons, hp, hq, if_true]
      exact Nat.succ_le_succ (ih ht)
    · cases hq : q a <;>
        simp only [List.filter_cons, hp, hq, if_false, Bool.false_eq_true] <;>
        [exact ih ht; exact Nat.le_succ_of_le (ih ht)]

lemma between_mono {v : Option Int} {lo1 hi1 lo2 hi2 : Int}
    (hlo : lo1 ≤ lo2) (hhi : hi2 ≤ hi1) (h : between v lo2 hi2 = true) :
    between v lo1 hi1 = true := by
  cases v with
  | none => simp [between] at h
  | some y => simp [between] at h ⊢; omega

lemma rowPred_mono (uya : Bool) (fs1 fs2 : FilterState) (r : Row)
    (h : AddsConstraint fs1 fs2) (hp : rowPred uya fs2 r = true) :
    rowPred uya fs1 r = true := by
  rcases h with ⟨h1, _, h3⟩ | ⟨h1, _, h3⟩ | ⟨h1, _, h3⟩ | ⟨h1, _, h3⟩ | ⟨h1, h2, h3⟩ <;>
    rw [h3] at hp <;>
    simp only [rowPred, Bool.and_eq_true] at hp ⊢ <;>
    obtain ⟨⟨⟨⟨⟨ht, hr⟩, hc⟩, hg⟩, hra⟩, hq⟩ := hp
  · exact ⟨⟨⟨⟨⟨by simp [typePass, h1], hr⟩, hc⟩, hg⟩, hra⟩, hq⟩
  · exact ⟨⟨⟨⟨⟨ht, hr⟩, by simp [countryPass, h1]⟩, hg⟩, hra⟩, hq⟩
  · exact ⟨⟨⟨⟨⟨ht, hr⟩, hc⟩, by simp [genrePass, h1]⟩, hra⟩, hq⟩
  · exact ⟨⟨⟨⟨⟨ht, hr⟩, hc⟩, hg⟩, by simp [ratingPass, h1]⟩, hq⟩
  · exact ⟨⟨⟨⟨⟨ht, between_mono h1 h2 hr⟩, hc⟩, hg⟩, hra⟩, hq⟩

/-- Claim C3: adding a constraint to a filter state (turning one empty
selection set non-empty, or narrowing the year range, all other criteria
unchanged) never increases the number of rows in the filter result. -/
theorem c3_filter_monotonicity (df : List Row) (fs1 fs2 : FilterState)
    (h : AddsConstraint fs1 fs2) :
    (applyFilters df fs2).length ≤ (applyFilters df fs1).length := by
  rw [applyFilters_eq_filter, applyFilters_eq_filter]
  exact length_filter_mono _ _ df
    (fun r _ hp => rowPred_mono (use_year_added df) fs1 fs2 r h hp)

/-- Witness for C3 at a concrete table and pair of filter states (the
country selection turns non-empty). -/
theorem c3_filter_monotonicity_witness :
    AddsConstraint fsAllEmpty fsCountryUnknown ∧
      (applyFilters tblPair fsCountryUnknown).length
        ≤ (applyFilters tblPair fsAllEmpty).length :=
  ⟨Or.inr (Or.inl ⟨rfl, by decide, rfl⟩),
   c3_filter_monotonicity tblPair fsAllEmpty fsCountryUnknown
     (Or.inr (Or.inl ⟨rfl, by decide, rfl⟩))⟩

/-- Claim C4: the active time base is chosen once, globally, from the full
unfiltered table — `use_year_added` is true exactly when some row of the
full table has a non-absent `year_added` — and the whole filter
application equals one filter by `rowPred`, whose range check reads
`year_added` for every row when `use_year_added` holds and `release_year`
for every row otherwise (no row uses a different time base). -/
theorem c4_time_base_global (df : List Row) (fs : FilterState) :
    (use_year_added df = true ↔ ∃ r ∈ df, r.year_added.isSome = true)
      ∧ applyFilters df fs = df.filter (rowPred (use_year_added df) fs) :=
  ⟨by simp [use_year_added, List.any_eq_true], applyFilters_eq_filter df fs⟩

/-- Claim C5: a row whose active time-base value (`year_added`, or
`release_year` under fallback) is absent is excluded from the filter
result, whatever the range `[lo, hi]` and the rest of the filter state. -/
theorem c5_absent_time_base_excluded (df : List Row) (fs : FilterState) (r : Row)
    (_hmem : r ∈ df)
    (habs : (if use_year_added df then r.year_added else r.release_year) = none) :
    r ∉ applyFilters df fs := by
  intro hin
  rw [applyFilters_eq_filter] at hin
  have hp := (List.mem_filter.mp hin).2
  simp only [rowPred, Bool.and_eq_true] at hp
  obtain ⟨⟨⟨⟨⟨_, hr⟩, _⟩, _⟩, _⟩, _⟩ := hp
  simp [rangePass, habs, between] at hr

/-- Witness for C5: the loaded row with no `date_added` is in the table
but not in the filter result. -/
theorem c5_absent_time_base_excluded_witness :
    loadRow rawMovieNoDate ∈ tblPair
      ∧ loadRow rawMovieNoDate ∉ applyFilters tblPair fsTypeOnly :=
  ⟨by decide,
   c5_absent_time_base_excluded tblPair fsTypeOnly (loadRow rawMovieNoDate)
     (by decide) (by decide)⟩

/-- Counterexample to C1 as stated: on a loaded table containing a Movie
row with an absent `year_added`, a filter state whose only non-empty
selection is the type set and whose year range is the full `[min, max]`
range of the active time base does not return the whole type-filtered
subset — the row with the absent time-base value is also excluded. -/
theorem c1_cex :
    applyFilters tblPair fsTypeOnly
      ≠ tblPair.filter (fun r => fsTypeOnly.type_sel.contains r.type) := by
  decide

/-- Claim C1 (amended): with only the type selection non-empty (country,
genre, rating sets and query empty) and the year range covering every
present value of the active time base, the filter result is exactly the
subset of rows whose type is in the type set AND whose active time-base
value is present; no other criterion excludes a row. -/
theorem c1_type_only_pass_through (df : List Row) (fs : FilterState)
    (htype : fs.type_sel ≠ [])
    (hc : fs.country_sel = []) (hg : fs.genre_sel = [])
    (hra : fs.rating_sel = []) (hq : fs.query = "")
    (hrange : ∀ r ∈ df, ∀ y : Int,
      (if use_year_added df then r.year_added else r.release_year) = some y →
      fs.lo ≤ y ∧ y ≤ fs.hi) :
    applyFilters df fs
      = df.filter (fun r =>
          fs.type_sel.contains r.type
            && (if use_year_added df then r.year_added else r.release_year).isSome) := by
  rw [applyFilters_eq_filter]
  refine List.filter_congr (fun r hrm => ?_)
  have htE : fs.type_sel.isEmpty = false := by
    cases h : fs.type_sel with
    | nil => exact absurd h htype
    | cons a t => rfl
  simp only [rowPred, typePass, rangePass, countryPass, genrePass, ratingPass,
    queryPass, hc, hg, hra, hq, htE, List.isEmpty_nil, Bool.true_or,
    Bool.false_or, Bool.and_true, Bool.true_and]
  cases hv : (if use_year_added df then r.year_added else r.release_year) with
  | none => simp [between, hv]
  | some y =>
    obtain ⟨hl, hh⟩ := hrange r hrm y hv
    simp [between, hv, hl, hh]
    exact fun _ => Or.inl rfl

/-- Witness for the amended C1 at a concrete table and filter state. -/
theorem c1_type_only_pass_through_witness :
    fsTypeOnly.type_sel ≠ [] ∧
      applyFilters tblPair fsTypeOnly
        = tblPair.filter (fun r =>
            fsTypeOnly.type_sel.contains r.type
              && (if use_year_added tblPair then r.year_added
                  else r.release_year).isSome) := by
  refine ⟨by decide, c1_type_only_pass_through tblPair fsTypeOnly
    (by decide) rfl rfl rfl rfl ?_⟩
  intro r hr y hy
  have hcases : r = loadRow rawMovie2020 ∨ r = loadRow rawMovieNoDate := by
    simpa [tblPair, load_data] using hr
  rw [show use_year_added tblPair = true from by decide, if_pos rfl] at hy
  rcases hcases with h | h <;> subst h
  · rw [show (loadRow rawMovie2020).year_added = some 2020 from by decide] at hy
    injection hy with hy2
    subst hy2
    exact ⟨by decide, by decide⟩
  · rw [show (loadRow rawMovieNoDate).year_added = (none : Option Int)
      from by decide] at hy
    cases hy

lemma toNat_ofNat_lt (n : Nat) (h : n < 55296) : (Char.ofNat n).toNat = n := by
  simp [Char.ofNat, Char.toNat, Nat.isValidChar, h, Char.ofNatAux, UInt32.toNat,
    BitVec.toNat_ofNatLt]

lemma char_eq_iff_toNat (c d : Char) : c = d ↔ c.toNat = d.toNat := by
  rw [Char.ext_iff]
  constructor
  · intro h; simp [Char.toNat, h]
  · intro h; exact UInt32.ext h

lemma isPySpace_iff (c : Char) :
    isPySpace c = true ↔
      (c.toNat = 32 ∨ c.toNat = 9 ∨ c.toNat = 10 ∨ c.toNat = 13
        ∨ c.toNat = 11 ∨ c.toNat = 12) := by
  unfold isPySpace
  simp [char_eq_iff_toNat]
  tauto

lemma isPySpace_lowerChar (c : Char) : isPySpace (lowerChar c) = isPySpace c := by
  unfold lowerChar
  by_cases h : ('A' ≤ c && c ≤ 'Z') = true
  · rw [if_pos h]
    rw [Bool.and_eq_true, decide_eq_true_eq, decide_eq_true_eq] at h
    have h1 : 65 ≤ c.toNat := by
      have := h.1; simp only [Char.le_def] at this; exact this
    have h2 : c.toNat ≤ 90 := by
      have := h.2; simp only [Char.le_def] at this; exact this
    have hv : (Char.ofNat (c.toNat + 32)).toNat = c.toNat + 32 :=
      toNat_ofNat_lt _ (by omega)
    rw [Bool.eq_iff_iff, isPySpace_iff, isPySpace_iff, hv]
    omega
  · rw [if_neg h]

lemma dropWhile_lower (l : List Char) :
    (l.map lowerChar).dropWhile isPySpace = (l.dropWhile isPySpace).map lowerChar := by
  induction l with
  | nil => rfl
  | cons c cs ih =>
    simp only [List.map_cons, List.dropWhile_cons, isPySpace_lowerChar]
    by_cases h : isPySpace c = true <;> simp [h, ih]

lemma isEmpty_map {α β : Type} (f : α → β) (l : List α) :
    (l.map f).isEmpty = l.isEmpty := by
  cases l <;> rfl

lemma trimEnd_lower (l : List Char) :
    trimEnd (l.map lowerChar) = (trimEnd l).map lowerChar := by
  induction l with
  | nil => rfl
  | cons c cs ih =>
    simp only [List.map_cons, trimEnd, ih, isPySpace_lowerChar, isEmpty_map]
    by_cases h : ((trimEnd cs).isEmpty && isPySpace c) = true <;> simp [h]

lemma stripChars_lower (l : List Char) :
    stripChars (l.map lowerChar) = (stripChars l).map lowerChar := by
  unfold stripChars
  rw [dropWhile_lower, trimEnd_lower]

lemma strip_lower_comm (s : String) : pyStrip (pyLower s) = pyLower (pyStrip s) :=
  congrArg String.mk (stripChars_lower s.data)

/-- Counterexample to C10 as stated: the claim's "matched as a
substring" conclusion is false of the program.  With the query `" .* "`
the stripped, lower-cased text `.*` is a regular expression that
`re.search` matches against every field, so the program keeps the
surviving row even though no field contains the two characters `.*`
literally — the actual result differs from the empty-query result
filtered by the substring predicate.  And with the query `" ( "` the
pattern is an invalid regular expression: the program raises `re.error`
(modelled as `none`) instead of computing any substring-filtered
result. -/
theorem c10_cex :
    (applyFiltersRe tblPair fsDotStar
        ≠ some ((applyFilters tblPair { fsDotStar with query := "" }).filter
            (queryPred (pyStrip (pyLower fsDotStar.query)))))
      ∧ applyFiltersRe tblPair fsParen = none := by
  decide

/-- Claim C10 (amended): a query that is only whitespace (including the
empty string) imposes no search constraint — the result equals the
result for the empty query and no error is raised; when the stripped
query is non-empty, the stripped, lower-cased text is interpreted as a
regular expression (`str.contains` default `regex=True`): if it fails to
compile, the filter application raises `re.error`, and otherwise a row
is kept iff the regex matches somewhere (`re.search`) in lower-cased
title, cast or director, on top of the otherwise-identical (empty-query)
result. -/
theorem c10_query_regex (df : List Row) (fs : FilterState) :
    (pyStrip fs.query = "" →
      applyFiltersRe df fs = some (applyFilters df { fs with query := "" }))
    ∧ (pyStrip fs.query ≠ "" →
      applyFiltersRe df fs
        = (parseRegex (pyLower (pyStrip fs.query))).map
            (fun re => (applyFilters df { fs with query := "" }).filter
              (queryPredRe re))) := by
  constructor
  · intro h
    show (if pyStrip fs.query = "" then _ else _) = _
    rw [if_pos h]
    rfl
  · intro h
    show (if pyStrip fs.query = "" then _ else _) = _
    rw [if_neg h, strip_lower_comm]
    cases parseRegex (pyLower (pyStrip fs.query)) <;> rfl

/-- Witness for the amended C10 at a whitespace-only query and at a
query with surrounding whitespace around plain text (a valid, literal
regular expression). -/
theorem c10_query_regex_witness :
    (applyFiltersRe tblPair fsWhitespaceQuery
      = some (applyFilters tblPair { fsWhitespaceQuery with query := "" }))
    ∧ (applyFiltersRe tblPair fsSearchQuery
      = (parseRegex (pyLower (pyStrip fsSearchQuery.query))).map
          (fun re => (applyFilters tblPair { fsSearchQuery with query := "" }).filter
            (queryPredRe re))) :=
  ⟨(c10_query_regex tblPair fsWhitespaceQuery).1 (by decide),
   (c10_query_regex tblPair fsSearchQuery).2 (by decide)⟩

/-- Counterexample to C2 as stated: for a row with absent genre text the
loader's `genre_list` is the singleton containing one empty string, not
the empty sequence — `fillna("")` runs before the split lambda, and
Python's `"".split(",")` is `[""]`, so the lambda's `else []` branch is
unreachable. -/
theorem c2_cex :
    (loadRow rawEmpty).genre_list = [""]
      ∧ (loadRow rawEmpty).genre_list ≠ ([] : List String) := by
  decide

/-- Claim C2 (amended): for every input row whose genre text (`listed_in`)
is absent, the derived `genre_list` is the singleton `[""]` (one
empty-string element) — in particular not `["Unknown"]` and not the empty
sequence. -/
theorem c2_missing_genre_singleton (raw : RawRow) (h : raw.listed_in = none) :
    (loadRow raw).genre_list = [""] := by
  simp only [loadRow, h, Option.getD_none]
  rfl

/-- Witness for the amended C2 at the all-absent raw row. -/
theorem c2_missing_genre_singleton_witness :
    (loadRow rawEmpty).genre_list = [""] :=
  c2_missing_genre_singleton rawEmpty rfl

lemma splitOnCharAux_ne_nil (sep : Char) (l : List Char) :
    splitOnCharAux sep l ≠ [] := by
  cases l with
  | nil => simp [splitOnCharAux]
  | cons c cs =>
    simp only [splitOnCharAux]
    by_cases h : c = sep <;> simp [h]

lemma pySplitOn_ne_nil (sep : Char) (s : String) : pySplitOn sep s ≠ [] := by
  unfold pySplitOn
  intro h
  exact splitOnCharAux_ne_nil sep s.data (List.map_eq_nil_iff.mp h)

/-- Claim C6: the loader's `country_list` is the ordered sequence of
whitespace-trimmed elements of the comma-split country text, the
singleton `["Unknown"]` when country is absent, and is never empty (its
elements are total string values, so it contains no null element). -/
theorem c6_country_list (raw : RawRow) :
    (loadRow raw).country_list
        = (pySplitOn ',' (raw.country.getD "Unknown")).map pyStrip
      ∧ (raw.country = none → (loadRow raw).country_list = ["Unknown"])
      ∧ (loadRow raw).country_list ≠ [] := by
  refine ⟨rfl, ?_, ?_⟩
  · intro h
    simp only [loadRow, h, Option.getD_none]
    rfl
  · show (pySplitOn ',' (raw.country.getD "Unknown")).map pyStrip ≠ []
    intro h
    exact pySplitOn_ne_nil ',' _ (List.map_eq_nil_iff.mp h)

/-- Witness for C6 at the all-absent raw row. -/
theorem c6_country_list_witness :
    (loadRow rawEmpty).country_list = ["Unknown"] :=
  (c6_country_list rawEmpty).2.1 rfl

/-- Claim C7: `year_added` and `month_added` are the year and month
components of the same parsed `date_added` value (which is absent exactly
when the raw text is absent or unparseable), so they are both present or
both absent, and present exactly when the parsed `date_added` is. -/
theorem c7_year_month_consistency (raw : RawRow) :
    (loadRow raw).date_added = raw.date_added.bind (fun s => parseDate (pyStrip s))
      ∧ (loadRow raw).year_added = ((loadRow raw).date_added).map PDate.year
      ∧ (loadRow raw).month_added = ((loadRow raw).date_added).map PDate.month
      ∧ ((loadRow raw).year_added.isSome ↔ (loadRow raw).date_added.isSome)
      ∧ ((loadRow raw).month_added.isSome ↔ (loadRow raw).date_added.isSome) := by
  refine ⟨rfl, rfl, rfl, ?_, ?_⟩ <;>
  · cases hd : raw.date_added with
    | none => simp [loadRow, hd]
    | some s => cases hp : parseDate (pyStrip s) <;> simp [loadRow, hd, hp]

lemma takeWhile_all_append (p : Char → Bool) (l r : List Char)
    (hl : ∀ c ∈ l, p c = true) (hr : ∀ c, r.head? = some c → p c = false) :
    (l ++ r).takeWhile p = l := by
  induction l with
  | nil =>
    cases r with
    | nil => rfl
    | cons c cs => simp [List.takeWhile_cons, hr c rfl]
  | cons a t ih =>
    have ha : p a = true := hl a (List.mem_cons_self a t)
    have ht : ∀ c ∈ t, p c = true := fun c hc => hl c (List.mem_cons_of_mem _ hc)
    simp [List.takeWhile_cons, ha, ih ht]

lemma dropWhile_all_append (p : Char → Bool) (l r : List Char)
    (hl : ∀ c ∈ l, p c = true) (hr : ∀ c, r.head? = some c → p c = false) :
    (l ++ r).dropWhile p = r := by
  induction l with
  | nil =>
    cases r with
    | nil => rfl
    | cons c cs => simp [List.dropWhile_cons, hr c rfl]
  | cons a t ih =>
    have ha : p a = true := hl a (List.mem_cons_self a t)
    have ht : ∀ c ∈ t, p c = true := fun c hc => hl c (List.mem_cons_of_mem _ hc)
    simp [List.dropWhile_cons, ha, ih ht]

lemma scanExtract_digits_prefix (tok digits rest : List Char)
    (hd : ∀ c ∈ digits, c.isDigit = true)
    (hr : ∀ c, rest.head? = some c → c.isDigit = false) :
    scanExtract tok (digits ++ rest)
      = if digits ≠ [] ∧ wsTokenCheck tok rest = true
        then some (digitsToNat digits) else scanExtract tok rest := by
  induction digits with
  | nil => simp
  | cons d ds ih =>
    have hdd : d.isDigit = true := hd d (List.mem_cons_self d ds)
    have hds : ∀ c ∈ ds, c.isDigit = true :=
      fun c hc => hd c (List.mem_cons_of_mem _ hc)
    have hdrop : (ds ++ rest).dropWhile Char.isDigit = rest :=
      dropWhile_all_append _ _ _ hds hr
    have htake : (ds ++ rest).takeWhile Char.isDigit = ds :=
      takeWhile_all_append _ _ _ hds hr
    show (if d.isDigit && wsTokenCheck tok ((ds ++ rest).dropWhile Char.isDigit)
        then some (digitsToNat (d :: (ds ++ rest).takeWhile Char.isDigit))
        else scanExtract tok (ds ++ rest)) = _
    rw [hdrop, htake, hdd]
    by_cases hw : wsTokenCheck tok rest = true
    · simp [hw]
    · rw [ih hds]
      simp [hw]

/-- Claim C8: for a Movie row whose duration text is well-formed
(`"<integer> min"`), `movie_minutes` equals the extracted integer and
`seasons` is absent; for a TV Show row whose duration text is well-formed
(`"<integer> Season(s)"`), `seasons` equals the extracted integer and
`movie_minutes` is absent — exactly one of the two is populated. -/
theorem c8_duration_exclusive (raw : RawRow) :
    (∀ n, (loadRow raw).type = "Movie" →
      exactMovieForm (raw.duration.getD "") = some n →
      (loadRow raw).movie_minutes = some n ∧ (loadRow raw).seasons = none)
    ∧ (∀ n, (loadRow raw).type = "TV Show" →
      exactTVForm (raw.duration.getD "") = some n →
      (loadRow raw).seasons = some n ∧ (loadRow raw).movie_minutes = none) := by
  constructor
  · intro n _ hform
    unfold exactMovieForm at hform
    by_cases hcond : (!((raw.duration.getD "").data.takeWhile Char.isDigit).isEmpty
        && ((raw.duration.getD "").data.dropWhile Char.isDigit == ' ' :: "min".data)) = true
    swap
    · rw [if_neg (by simpa using hcond)] at hform; cases hform
    rw [if_pos (by simpa using hcond)] at hform
    injection hform with hn
    rw [Bool.and_eq_true] at hcond
    have hne : (raw.duration.getD "").data.takeWhile Char.isDigit ≠ [] := by
      have := hcond.1
      cases hE : (raw.duration.getD "").data.takeWhile Char.isDigit with
      | nil => rw [hE] at this; simp at this
      | cons a t => simp
    have hrest : (raw.duration.getD "").data.dropWhile Char.isDigit = ' ' :: "min".data := by
      have := hcond.2
      exact eq_of_beq this
    have hsplit : (raw.duration.getD "").data
        = (raw.duration.getD "").data.takeWhile Char.isDigit
          ++ (raw.duration.getD "").data.dropWhile Char.isDigit :=
      (List.takeWhile_append_dropWhile _ _).symm
    have hdig : ∀ c ∈ (raw.duration.getD "").data.takeWhile Char.isDigit,
        c.isDigit = true := fun c hc => List.mem_takeWhile_imp hc
    have hhead : ∀ c, ((raw.duration.getD "").data.dropWhile Char.isDigit).head?
        = some c → c.isDigit = false := by
      rw [hrest]; intro c hc; injection hc with hc; rw [← hc]; decide
    constructor
    · show scanExtract "min".data (raw.duration.getD "").data = some n
      rw [hsplit, scanExtract_digits_prefix _ _ _ hdig hhead,
        if_pos ⟨hne, by rw [hrest]; decide⟩, hn]
    · show scanExtract "Season".data (raw.duration.getD "").data = none
      rw [hsplit, scanExtract_digits_prefix _ _ _ hdig hhead,
        if_neg (by rw [hrest]; intro hcontra; exact absurd hcontra.2 (by decide)),
        hrest]
      decide
  · intro n _ hform
    unfold exactTVForm at hform
    by_cases hcond : (!((raw.duration.getD "").data.takeWhile Char.isDigit).isEmpty
        && (((raw.duration.getD "").data.dropWhile Char.isDigit == ' ' :: "Season".data)
          || ((raw.duration.getD "").data.dropWhile Char.isDigit == ' ' :: "Seasons".data))) = true
    swap
    · rw [if_neg (by simpa using hcond)] at hform; cases hform
    rw [if_pos (by simpa using hcond)] at hform
    injection hform with hn
    rw [Bool.and_eq_true] at hcond
    have hne : (raw.duration.getD "").data.takeWhile Char.isDigit ≠ [] := by
      have := hcond.1
      cases hE : (raw.duration.getD "").data.takeWhile Char.isDigit with
      | nil => rw [hE] at this; simp at this
      | cons a t => simp
    have hrest : (raw.duration.getD "").data.dropWhile Char.isDigit = ' ' :: "Season".data
        ∨ (raw.duration.getD "").data.dropWhile Char.isDigit = ' ' :: "Seasons".data := by
      have := hcond.2
      rw [Bool.or_eq_true] at this
      rcases this with h | h
      · exact Or.inl (eq_of_beq h)
      · exact Or.inr (eq_of_beq h)
    have hsplit : (raw.duration.getD "").data
        = (raw.duration.getD "").data.takeWhile Char.isDigit
          ++ (raw.duration.getD "").data.dropWhile Char.isDigit :=
      (List.takeWhile_append_dropWhile _ _).symm
    have hdig : ∀ c ∈ (raw.duration.getD "").data.takeWhile Char.isDigit,
        c.isDigit = true := fun c hc => List.mem_takeWhile_imp hc
    have hhead : ∀ c, ((raw.duration.getD "").data.dropWhile Char.isDigit).head?
        = some c → c.isDigit = false := by
      rcases hrest with h | h <;>
        · rw [h]; intro c hc; injection hc with hc; rw [← hc]; decide
    constructor
    · show scanExtract "Season".data (raw.duration.getD "").data = some n
      rcases hrest with h | h <;>
        rw [hsplit, scanExtract_digits_prefix _ _ _ hdig hhead,
          if_pos ⟨hne, by rw [h]; decide⟩, hn]
    · show scanExtract "min".data (raw.duration.getD "").data = none
      rcases hrest with h | h <;>
      · rw [hsplit, scanExtract_digits_prefix _ _ _ hdig hhead,
          if_neg (by rw [h]; intro hcontra; exact absurd hcontra.2 (by decide)), h]
        decide

/-- Witness for C8 at a Movie row with duration `"90 min"` and a TV Show
row with duration `"2 Seasons"`. -/
theorem c8_duration_exclusive_witness :
    ((loadRow rawMovie90).movie_minutes = some 90 ∧ (loadRow rawMovie90).seasons = none)
    ∧ ((loadRow rawShow2).seasons = some 2 ∧ (loadRow rawShow2).movie_minutes = none) :=
  ⟨(c8_duration_exclusive rawMovie90).1 90 (by decide) (by decide),
   (c8_duration_exclusive rawShow2).2 2 (by decide) (by decide)⟩

lemma foldl_bestStep_none (xs ys : List String) :
    ∀ acc, ys.foldl (bestStep xs) acc = none → acc = none ∧ ys = [] := by
  induction ys with
  | nil => intro acc h; exact ⟨h, rfl⟩
  | cons y t ih =>
    intro acc h
    simp only [List.foldl_cons] at h
    obtain ⟨ha, _⟩ := ih _ h
    exfalso
    cases acc with
    | none => simp [bestStep] at ha
    | some b =>
      by_cases hc : xs.count b < xs.count y <;> simp [bestStep, hc] at ha

lemma foldl_bestStep_some (xs : List String) (ys : List String) :
    ∀ acc b, ys.foldl (bestStep xs) acc = some b →
      ((b ∈ ys ∨ acc = some b)
        ∧ (∀ y ∈ ys, xs.count y ≤ xs.count b)
        ∧ (∀ a, acc = some a → xs.count a ≤ xs.count b)) := by
  induction ys with
  | nil =>
    intro acc b h
    simp only [List.foldl_nil] at h
    refine ⟨Or.inr h, by simp, fun a ha => ?_⟩
    rw [ha] at h
    injection h with h
    rw [h]
  | cons y t ih =>
    intro acc b h
    simp only [List.foldl_cons] at h
    obtain ⟨hmem, hmax, hacc⟩ := ih (bestStep xs acc y) b h
    refine ⟨?_, ?_, ?_⟩
    · rcases hmem with hb | hb
      · exact Or.inl (List.mem_cons_of_mem _ hb)
      · cases acc with
        | none =>
          simp only [bestStep] at hb
          injection hb with hb
          exact Or.inl (hb ▸ List.mem_cons_self y t)
        | some a =>
          simp only [bestStep] at hb
          by_cases hc : xs.count a < xs.count y
          · rw [if_pos hc] at hb
            injection hb with hb
            exact Or.inl (hb ▸ List.mem_cons_self y t)
          · rw [if_neg hc] at hb
            exact Or.inr hb
    · intro z hz
      rcases List.mem_cons.mp hz with hz | hz
      · subst hz
        cases acc with
        | none => exact hacc z (by simp [bestStep])
        | some a =>
          by_cases hc : xs.count a < xs.count z
          · exact hacc z (by simp [bestStep, hc])
          · exact le_trans (Nat.le_of_not_lt hc) (hacc a (by simp [bestStep, hc]))
      · exact hmax z hz
    · intro a ha
      subst ha
      by_cases hc : xs.count a < xs.count y
      · exact le_trans (Nat.le_of_lt hc) (hacc y (by simp [bestStep, hc]))
      · exact hacc a (by simp [bestStep, hc])

lemma mostFrequent_spec (xs : List String) (hne : xs ≠ []) :
    ∃ b, mostFrequent xs = some b ∧ b ∈ xs ∧ ∀ y ∈ xs, xs.count y ≤ xs.count b := by
  cases h : mostFrequent xs with
  | none =>
    obtain ⟨_, h2⟩ := foldl_bestStep_none xs xs none h
    exact absurd h2 hne
  | some b =>
    obtain ⟨hmem, hmax, _⟩ := foldl_bestStep_some xs xs none b h
    rcases hmem with hb | hb
    · exact ⟨b, rfl, hb, hmax⟩
    · cases hb

/-- Counterexample to C9 as stated: on the non-empty loaded table whose
only genre entry is the empty string, `top_genre` is `none` — modelling
the `ValueError` that `idxmax` raises on the empty post-drop series —
rather than a successfully computed value; and on a table where
`"Unknown"` is the most frequent genre entry, `top_genre` returns
`"Unknown"` rather than the most frequent non-`"Unknown"` entry. -/
theorem c9_cex :
    top_genre [loadRow rawEmpty] = none
      ∧ top_genre tblUnknownGenres = some "Unknown" := by
  decide

/-- Claim C9 (amended): over the finally-filtered subset, `top_genre` is
the placeholder `"—"` when the subset is empty or every row's genre list
is the empty list; it raises (modelled as `none`) when the subset is
non-empty, some row has a non-empty genre list, but every genre entry is
the empty string; and otherwise it successfully returns a genre entry of
maximal multiplicity among the non-empty-string entries (`"Unknown"` is
not excluded). -/
theorem c9_top_genre_spec (f : List Row) :
    ((f = [] ∨ ∀ r ∈ f, r.genre_list = []) → top_genre f = some "—")
    ∧ (f ≠ [] → (∃ r ∈ f, r.genre_list ≠ []) → genreEntries f = [] →
        top_genre f = none)
    ∧ (f ≠ [] → (∃ r ∈ f, r.genre_list ≠ []) → genreEntries f ≠ [] →
        ∃ g, top_genre f = some g ∧ g ∈ genreEntries f
          ∧ ∀ g2 ∈ genreEntries f,
              (genreEntries f).count g2 ≤ (genreEntries f).count g) := by
  refine ⟨?_, ?_, ?_⟩
  · intro h
    rcases h with h | h
    · simp [top_genre, h]
    · have hany : f.any (fun r => !r.genre_list.isEmpty) = false := by
        rw [List.any_eq_false]
        intro r hr
        simp [h r hr]
      simp [top_genre, hany]
  · intro h1 h2 h3
    have hcond : (!f.isEmpty && f.any (fun r => !r.genre_list.isEmpty)) = true := by
      rw [Bool.and_eq_true]
      refine ⟨by simp [List.isEmpty_iff, h1], ?_⟩
      rw [List.any_eq_true]
      obtain ⟨r, hr, hg⟩ := h2
      exact ⟨r, hr, by simp [List.isEmpty_iff, hg]⟩
    simp only [top_genre, hcond, if_true, h3]
    rfl
  · intro h1 h2 h3
    have hcond : (!f.isEmpty && f.any (fun r => !r.genre_list.isEmpty)) = true := by
      rw [Bool.and_eq_true]
      refine ⟨by simp [List.isEmpty_iff, h1], ?_⟩
      rw [List.any_eq_true]
      obtain ⟨r, hr, hg⟩ := h2
      exact ⟨r, hr, by simp [List.isEmpty_iff, hg]⟩
    obtain ⟨b, hb, hmem, hmax⟩ := mostFrequent_spec (genreEntries f) h3
    exact ⟨b, by simp [top_genre, hcond, hb], hmem, hmax⟩

/-- Witness for the amended C9: the success branch at a table whose most
frequent surviving entry is `"Unknown"`. -/
theorem c9_top_genre_spec_witness :
    ∃ g, top_genre tblUnknownGenres = some g ∧ g ∈ genreEntries tblUnknownGenres
      ∧ ∀ g2 ∈ genreEntries tblUnknownGenres,
          (genreEntries tblUnknownGenres).count g2
            ≤ (genreEntries tblUnknownGenres).count g :=
  (c9_top_genre_spec tblUnknownGenres).2.2 (by decide) (by decide) (by decide)
